import Mathlib

/-!
Verification of the SynCED-EnDe orchestration layer: the retrying call
executor (`_with_retries`), the batching/dispatch logic (`inject.py` /
`reinject.py` main loops), the strict five-integer response parser
(`_parse_five_ints`), the reconciliation pass (`reinject.py`), and the
scoring pipeline (`judge_quantify.py`).

Python strings are embedded as `List Char` / `String`; machine reals for
backoff times as `ℚ`; exceptions as `Except` / explicit outcome types;
the remote service as an oracle function from attempt (or batch / row)
index to an outcome.
-/

set_option autoImplicit false

namespace SynCED

/-! ## Python string primitives -/

/-- Python whitespace characters recognised by `str.strip()` / `str.split()`. -/
def isPySpace (c : Char) : Bool :=
  c = ' ' || c = '\t' || c = '\n' || c = '\x0d' || c = '\x0b' || c = '\x0c'

/-- Python `str.strip()`: drop leading and trailing whitespace. -/
def pyStrip (s : List Char) : List Char :=
  ((s.dropWhile isPySpace).reverse.dropWhile isPySpace).reverse

/-- Python `str.strip()` on `String`. -/
def pyStripStr (s : String) : String :=
  ⟨pyStrip s.data⟩

/-- Python `str.split(sep)` for a one-character separator: splits at every
occurrence, keeping empty fields; the split of the empty string is one
empty field. -/
def splitOnChar (sep : Char) : List Char → List (List Char)
  | [] => [[]]
  | c :: rest =>
    let r := splitOnChar sep rest
    if c = sep then
      [] :: r
    else
      match r with
      | [] => [[c]]
      | h :: t => (c :: h) :: t

/-- Recursion core of Python `str.split()` (no argument). Structural on
a fuel argument so the kernel can evaluate it; every step emits one word
consuming at least one character, so any fuel of at least the input
length plus one is exact. -/
def splitWsAux : Nat → List Char → List (List Char)
  | 0, _ => []
  | fuel + 1, l =>
    match l.dropWhile isPySpace with
    | [] => []
    | c :: rest =>
      (c :: rest.takeWhile (fun x => !isPySpace x)) ::
        splitWsAux fuel (rest.dropWhile (fun x => !isPySpace x))

/-- Python `str.split()` (no argument): split on runs of whitespace,
discarding empty fields. -/
def splitWs (l : List Char) : List (List Char) :=
  splitWsAux (l.length + 1) l

/-- Value of a nonempty all-digit character list, `none` otherwise. -/
def digitsVal (l : List Char) : Option Nat :=
  if l = [] then none
  else if l.all Char.isDigit then
    some (l.foldl (fun n c => n * 10 + (c.toNat - 48)) 0)
  else none

/-- Python `int(s)`: strip whitespace, optional single sign, digits. -/
def pyInt (s : List Char) : Option Int :=
  match pyStrip s with
  | '-' :: rest => (digitsVal rest).map (fun n => -(n : Int))
  | '+' :: rest => (digitsVal rest).map (fun n => (n : Int))
  | rest => (digitsVal rest).map (fun n => (n : Int))

/-! ## ResponseParser (`_parse_five_ints` in judge_quantify.py) -/

/-- Record of the five judgement scores, keyed as in the source dict. -/
structure Scores where
  error_obviousness : Int
  error_severity : Int
  localization_complexity : Int
  contextual_dependency : Int
  adequacy_deviation : Int
deriving DecidableEq

/-- Separator choice of `_parse_five_ints`: after stripping, split on tab
if a tab is present, else on comma (stripping each field), else on
generic whitespace. -/
def chooseParts (raw : List Char) : List (List Char) :=
  let r := pyStrip raw
  if '\t' ∈ r then splitOnChar '\t' r
  else if ',' ∈ r then (splitOnChar ',' r).map pyStrip
  else splitWs r

/-- Embedding of the list comprehension `[int(p) for p in parts]`: the
whole conversion fails as soon as one element fails. -/
def mapOption {α β : Type} (f : α → Option β) : List α → Option (List β)
  | [] => some []
  | a :: t =>
    match f a with
    | none => none
    | some b =>
      match mapOption f t with
      | none => none
      | some bs => some (b :: bs)

/-- Embedding of `_parse_five_ints`: exactly five fields, each an integer
in [1,5], else a `ValueError` (here `none`). -/
def parseFiveInts (raw : List Char) : Option Scores :=
  let parts := chooseParts raw
  if parts.length ≠ 5 then none
  else
    match mapOption pyInt parts with
    | none => none
    | some vals =>
      if vals.any (fun v => decide (v < 1) || decide (5 < v)) then none
      else
        match vals with
        | [a, b, c, d, e] => some ⟨a, b, c, d, e⟩
        | _ => none

/-! ## RetryExecutor (`_with_retries`, identical in all three scripts)

The remote call is an oracle from the attempt index to the outcome of
that attempt; the uniform jitter draws are a function from the attempt
index to the drawn amount. The trace records the terminal outcome, the
number of remote calls made, and each backoff sleep performed. -/

/-- Configured retry ceiling (`MAX_RETRIES = 6`). -/
def MAX_RETRIES : Nat := 6

/-- Configured backoff base in seconds (`BACKOFF_BASE_S = 1.0`). -/
def BACKOFF_BASE_S : ℚ := 1

/-- Configured jitter bound in seconds (`JITTER_S = 0.6`). -/
def JITTER_S : ℚ := 6 / 10

/-- Configured rows per request (`BATCH_SIZE = 5`). -/
def BATCH_SIZE : Nat := 5

/-- Outcome of one `client.responses.create` attempt: a response, a
`BadRequestError`, or any other exception (all retryable). -/
inductive CallOutcome (α : Type) where
  | success (resp : α)
  | badRequest
  | retryable
deriving DecidableEq

/-- Terminal outcome of `_with_retries`: a response, the re-raised
`BadRequestError`, or the `RuntimeError("Max retries exceeded")`. -/
inductive RetryOutcome (α : Type) where
  | ok (resp : α)
  | fatalBadRequest
  | maxRetriesExceeded
deriving DecidableEq

/-- Trace of one `_with_retries` run: terminal outcome, number of remote
calls made, and the list of backoff sleeps in order. -/
structure RetryTrace (α : Type) where
  outcome : RetryOutcome α
  callsMade : Nat
  sleeps : List ℚ
deriving DecidableEq

/-- Sleep performed after a retryable failure of attempt `n`:
`BACKOFF_BASE_S * (2 ** attempt) + random.uniform(0, JITTER_S)`. -/
def backoffWait (jf : Nat → ℚ) (attempt : Nat) : ℚ :=
  BACKOFF_BASE_S * 2 ^ attempt + jf attempt

/-- Loop body of `_with_retries`, with explicit attempt counter and fuel:
success returns, `BadRequestError` re-raises, every other exception
sleeps and continues; exhausted fuel raises the terminal failure. -/
def withRetriesAux {α : Type} (oracle : Nat → CallOutcome α) (jf : Nat → ℚ) :
    Nat → Nat → RetryTrace α
  | _, 0 => ⟨.maxRetriesExceeded, 0, []⟩
  | attempt, fuel + 1 =>
    match oracle attempt with
    | .success r => ⟨.ok r, 1, []⟩
    | .badRequest => ⟨.fatalBadRequest, 1, []⟩
    | .retryable =>
      let rest := withRetriesAux oracle jf (attempt + 1) fuel
      ⟨rest.outcome, rest.callsMade + 1, backoffWait jf attempt :: rest.sleeps⟩

/-- Embedding of `_with_retries`: `for attempt in range(MAX_RETRIES)`. -/
def withRetries {α : Type} (oracle : Nat → CallOutcome α) (jf : Nat → ℚ) : RetryTrace α :=
  withRetriesAux oracle jf 0 MAX_RETRIES

/-! ## BatchDispatcher (`inject.py` main loop) -/

/-- Input row of `err_for_injection.tsv`. -/
structure Row where
  rid : String
  src_en : String
  mt_de : String
  target_err : String
deriving DecidableEq

/-- Output row of `injected_err.tsv`. -/
structure InjectedRow where
  rid : String
  src_en : String
  mt_de : String
  target_err : String
  mt_de_injected : String
deriving DecidableEq

/-- One content element of a remote response item; `text = none` models a
missing `text` attribute. -/
structure RespContent where
  text : Option String
deriving DecidableEq

/-- One item of the remote response's `output` list. -/
structure RespItem where
  type : String
  role : String
  content : List RespContent
deriving DecidableEq

/-- Embedding of `_extract_output_text` (list version, inject/reinject):
collect the stripped text of every non-empty content element of every
assistant message, in emission order. -/
def extractOutputText (output : List RespItem) : List String :=
  output.flatMap (fun item =>
    if item.type = "message" ∧ item.role = "assistant" then
      item.content.filterMap (fun c =>
        match c.text with
        | some t => if t = "" then none else some (pyStripStr t)
        | none => none)
    else [])

/-- Recursion core of `df.iloc[start:start+BATCH_SIZE]` chunking.
Structural on a fuel argument so the kernel can evaluate it; for any
positive chunk size each step consumes at least one element, so any fuel
of at least the input length is exact. -/
def chunksOfAux {α : Type} (n : Nat) : Nat → List α → List (List α)
  | 0, _ => []
  | _, [] => []
  | fuel + 1, a :: rest => ((a :: rest).take n) :: chunksOfAux n fuel (rest.drop (n - 1))

/-- Embedding of `df.iloc[start:start+BATCH_SIZE]` chunking:
`for start in range(0, len(df), n)`. -/
def chunksOf {α : Type} (n : Nat) (l : List α) : List (List α) :=
  chunksOfAux n l.length l

/-- Loop body of `inject.py` `main` for one batch (lines 114-122): on any
exception the outputs degrade to `[""] * len(chunk)`; the outputs are
then zipped positionally with the chunk (`zip` truncates to the shorter
sequence, exactly as in Python). -/
def injectStep {ε : Type} (chunk : List Row) (call : Except ε (List RespItem)) :
    List InjectedRow :=
  let outputs : List String :=
    match call with
    | .ok resp => extractOutputText resp
    | .error _ => List.replicate chunk.length ""
  (chunk.zip outputs).map (fun p => ⟨p.1.rid, p.1.src_en, p.1.mt_de, p.1.target_err, p.2⟩)

/-- Embedding of the whole `inject.py` `main` loop: process the input in
chunks of `BATCH_SIZE`, with `calls i` the outcome of the `inject_batch`
call for the `i`-th chunk. -/
def injectMain {ε : Type} (df : List Row) (calls : Nat → Except ε (List RespItem)) :
    List InjectedRow :=
  (chunksOf BATCH_SIZE df).enum.flatMap (fun p => injectStep p.2 (calls p.1))

/-! ## ReconciliationPass (`reinject.py` main) -/

/-- Row of `injected_err.tsv` as read back by `reinject.py`;
`mt_de_injected = none` models a NaN (missing) cell. -/
structure IRow where
  rid : String
  src_en : String
  mt_de : String
  target_err : String
  mt_de_injected : Option String
deriving DecidableEq

/-- Completeness test of `reinject.py`: a row is kept (not re-sent) iff
`mt_de_injected` is present and non-empty after stripping, the negation
of the `isna() | (str.strip() == "")` selection. -/
def isComplete (r : IRow) : Bool :=
  match r.mt_de_injected with
  | none => false
  | some s => pyStripStr s != ""

/-- Loop body of `reinject.py` `main` for one batch (lines 114-122),
identical to `injectStep` except that the produced rows carry the fresh
injection as their `mt_de_injected` cell. -/
def reinjectStep {ε : Type} (chunk : List IRow) (call : Except ε (List RespItem)) :
    List IRow :=
  let outputs : List String :=
    match call with
    | .ok resp => extractOutputText resp
    | .error _ => List.replicate chunk.length ""
  (chunk.zip outputs).map
    (fun p => ⟨p.1.rid, p.1.src_en, p.1.mt_de, p.1.target_err, some p.2⟩)

/-- Embedding of `reinject.py` `main`: partition into complete rows and
rows to fix, re-run the dispatcher over the rows to fix only (in chunks
of `BATCH_SIZE`, with `calls i` the outcome of the `i`-th batch call),
and concatenate the kept complete rows with the fresh results. -/
def reconcile {ε : Type} (df : List IRow) (calls : Nat → Except ε (List RespItem)) :
    List IRow :=
  let toFix := df.filter (fun r => !isComplete r)
  let keep := df.filter (fun r => isComplete r)
  let reinjected := (chunksOf BATCH_SIZE toFix).enum.flatMap
    (fun p => reinjectStep p.2 (calls p.1))
  keep ++ reinjected

/-! ## ScoringPipeline (`judge_quantify.py` main) -/

/-- Outcome of one single-row remote call as seen by the main loop: an
exception (of any class, including retries-exhausted and bad-request),
or the text extracted from the response. -/
inductive CallRes where
  | raises
  | returns (text : String)
deriving DecidableEq

/-- Input row of `ced_final_injected.tsv` (headerless layout). -/
structure JRow where
  src_en : String
  mt_de : String
  label : String
deriving DecidableEq

/-- Output record of `judged_quantified_nolabel.tsv`; `scores = none`
models all five score cells null. -/
structure JOut where
  src_en : String
  mt_de : String
  bt_en : String
  label : String
  scores : Option Scores
deriving DecidableEq

/-- Embedding of `judge_case`: an exception from the judgement call
propagates (`none`), while a parse failure is caught inside and yields
the empty dict (`some none`). -/
def judge_case (call : CallRes) : Option (Option Scores) :=
  match call with
  | .raises => none
  | .returns text => some (parseFiveInts text.data)

/-- Loop body of `judge_quantify.py` `main` for one row (lines 222-241):
the back-translation call, then the judgement call; any exception from
either call degrades the row to empty `bt_en` and null scores. -/
def scoreRow (r : JRow) (btCall judgeCall : CallRes) : JOut :=
  match btCall with
  | .raises => ⟨r.src_en, r.mt_de, "", r.label, none⟩
  | .returns bt =>
    match judge_case judgeCall with
    | none => ⟨r.src_en, r.mt_de, "", r.label, none⟩
    | some scores => ⟨r.src_en, r.mt_de, bt, r.label, scores⟩

/-- Row loop of `judge_quantify.py` `main`, with explicit row index:
`btCalls i` and `judgeCalls i` are the outcomes of the two remote calls
for row `i`. -/
def scoringAux (btCalls judgeCalls : Nat → CallRes) : Nat → List JRow → List JOut
  | _, [] => []
  | i, r :: rest => scoreRow r (btCalls i) (judgeCalls i) :: scoringAux btCalls judgeCalls (i + 1) rest

/-- Embedding of the whole `judge_quantify.py` `main` loop. -/
def scoringPipeline (rows : List JRow) (btCalls judgeCalls : Nat → CallRes) : List JOut :=
  scoringAux btCalls judgeCalls 0 rows

/-! ## Helper lemmas -/

/-- Zipping a list with same-length replication pairs every element with
the replicated value. -/
theorem zip_replicate_self {α β : Type} (b : β) :
    ∀ l : List α, l.zip (List.replicate l.length b) = l.map (fun a => (a, b)) := by
  intro l
  induction l with
  | nil => rfl
  | cons a t ih => simp [List.replicate_succ, ih]

/-- A `mapOption` run fails exactly when `f` fails on some element. -/
theorem mapOption_eq_none_iff {α β : Type} (f : α → Option β) (l : List α) :
    mapOption f l = none ↔ ∃ a ∈ l, f a = none := by
  induction l with
  | nil => simp [mapOption]
  | cons a t ih =>
    cases hf : f a with
    | none => simp [mapOption, hf]
    | some b =>
      cases ht : mapOption f t with
      | none => simp [mapOption, hf, ht, ih.mp ht, hf]
      | some bs => simp [mapOption, hf, ht, ← ih]

/-- A successful `mapOption` run preserves length. -/
theorem mapOption_length {α β : Type} (f : α → Option β) :
    ∀ (l : List α) (l' : List β), mapOption f l = some l' → l'.length = l.length := by
  intro l
  induction l with
  | nil =>
    intro l' h
    simp [mapOption] at h
    simp [← h]
  | cons a t ih =>
    intro l' h
    cases hf : f a with
    | none => simp [mapOption, hf] at h
    | some b =>
      cases ht : mapOption f t with
      | none => simp [mapOption, hf, ht] at h
      | some xs =>
        simp [mapOption, hf, ht] at h
        simp [← h, List.length_cons, ih xs ht]

/-- Unrolls `withRetriesAux` over a run of `n` consecutive retryable
failures: the trace of the remaining attempts is prefixed with the `n`
backoff sleeps and the `n` calls made. -/
theorem withRetriesAux_retryableSteps {α : Type} (oracle : Nat → CallOutcome α)
    (jf : Nat → ℚ) (n : Nat) :
    ∀ attempt fuel, n ≤ fuel → (∀ m, m < n → oracle (attempt + m) = CallOutcome.retryable) →
    withRetriesAux oracle jf attempt fuel =
      ⟨(withRetriesAux oracle jf (attempt + n) (fuel - n)).outcome,
       (withRetriesAux oracle jf (attempt + n) (fuel - n)).callsMade + n,
       (List.range n).map (fun m => backoffWait jf (attempt + m)) ++
         (withRetriesAux oracle jf (attempt + n) (fuel - n)).sleeps⟩ := by
  induction n with
  | zero => intro attempt fuel _ _; simp
  | succ k ih =>
    intro attempt fuel hn hr
    cases fuel with
    | zero => omega
    | succ f =>
      have h0 : oracle attempt = CallOutcome.retryable := by
        have h := hr 0 (Nat.succ_pos k)
        simpa using h
      have hrest := ih (attempt + 1) f (by omega)
        (fun m hm => by
          have h := hr (m + 1) (by omega)
          have e : attempt + (m + 1) = attempt + 1 + m := by omega
          rwa [e] at h)
      have e1 : attempt + (k + 1) = attempt + 1 + k := by omega
      have e2 : f + 1 - (k + 1) = f - k := by omega
      have e3 : (List.range (k + 1)).map (fun m => backoffWait jf (attempt + m)) =
          backoffWait jf attempt ::
            (List.range k).map (fun m => backoffWait jf (attempt + 1 + m)) := by
        rw [List.range_succ_eq_map, List.map_cons, List.map_map]
        congr 1
        simp only [List.map_eq_map_iff, List.mem_range]
        intro a _
        show backoffWait jf (attempt + (a + 1)) = backoffWait jf (attempt + 1 + a)
        congr 1
        omega
      show withRetriesAux oracle jf attempt (f + 1) = _
      simp only [withRetriesAux, h0]
      rw [hrest, e1, e2, e3]
      simp [Nat.add_assoc]

/-- Runs of `_with_retries` that hit a `BadRequestError` at attempt `n`
after `n` retryable failures: re-raise at once, `n + 1` calls, sleeps
only for the earlier retryable failures. -/
theorem withRetries_badRequest_at {α : Type} (oracle : Nat → CallOutcome α)
    (jf : Nat → ℚ) (n : Nat) (hn : n < MAX_RETRIES)
    (hpre : ∀ m, m < n → oracle m = CallOutcome.retryable)
    (hb : oracle n = CallOutcome.badRequest) :
    withRetries oracle jf =
      ⟨RetryOutcome.fatalBadRequest, n + 1, (List.range n).map (backoffWait jf)⟩ := by
  have hsteps := withRetriesAux_retryableSteps oracle jf n 0 MAX_RETRIES (by omega)
    (fun m hm => by simpa using hpre m hm)
  obtain ⟨s, hs⟩ : ∃ s, MAX_RETRIES - n = s + 1 := ⟨MAX_RETRIES - n - 1, by omega⟩
  rw [withRetries, hsteps, hs]
  simp only [Nat.zero_add, withRetriesAux, hb]
  simp [Nat.add_comm]

/-- Runs of `_with_retries` that succeed at attempt `n` after `n`
retryable failures: `n + 1` calls and one backoff per failed attempt. -/
theorem withRetries_success_at {α : Type} (oracle : Nat → CallOutcome α)
    (jf : Nat → ℚ) (n : Nat) (r : α) (hn : n < MAX_RETRIES)
    (hpre : ∀ m, m < n → oracle m = CallOutcome.retryable)
    (hs : oracle n = CallOutcome.success r) :
    withRetries oracle jf =
      ⟨RetryOutcome.ok r, n + 1, (List.range n).map (backoffWait jf)⟩ := by
  have hsteps := withRetriesAux_retryableSteps oracle jf n 0 MAX_RETRIES (by omega)
    (fun m hm => by simpa using hpre m hm)
  obtain ⟨s, hfuel⟩ : ∃ s, MAX_RETRIES - n = s + 1 := ⟨MAX_RETRIES - n - 1, by omega⟩
  rw [withRetries, hsteps, hfuel]
  simp only [Nat.zero_add, withRetriesAux, hs]
  simp [Nat.add_comm]

/-- Runs of `_with_retries` where every attempt fails retryably: the
terminal failure is raised after `MAX_RETRIES` calls and `MAX_RETRIES`
backoff sleeps (one per failed attempt, the last attempt included). -/
theorem withRetries_allRetryable {α : Type} (oracle : Nat → CallOutcome α)
    (jf : Nat → ℚ) (h : ∀ m, m < MAX_RETRIES → oracle m = CallOutcome.retryable) :
    withRetries oracle jf =
      ⟨RetryOutcome.maxRetriesExceeded, MAX_RETRIES,
       (List.range MAX_RETRIES).map (backoffWait jf)⟩ := by
  have hsteps := withRetriesAux_retryableSteps oracle jf MAX_RETRIES 0 MAX_RETRIES
    (le_refl _) (fun m hm => by simpa using h m hm)
  rw [withRetries, hsteps]
  simp [withRetriesAux]

/-! ## Claim theorems -/

/-- C1: the claimed invariant — a reply-count mismatch degrades the whole
batch to empty-string placeholders, one output per input row — fails on
the code. For a two-row batch whose remote call succeeds but whose reply
yields a single extracted text, the positional `zip` silently truncates:
the dispatch step produces one output row carrying that text and drops
the second row entirely, instead of two empty-placeholder rows. -/
theorem inject_count_mismatch_drops_rows :
    (extractOutputText [⟨"message", "assistant", [⟨some "X"⟩]⟩]).length = 1 ∧
    injectStep [⟨"r1", "s1", "m1", "NAM"⟩, ⟨"r2", "s2", "m2", "NUM"⟩]
        (Except.ok [⟨"message", "assistant", [⟨some "X"⟩]⟩] : Except Unit (List RespItem)) =
      [⟨"r1", "s1", "m1", "NAM", "X"⟩] ∧
    (injectStep [⟨"r1", "s1", "m1", "NAM"⟩, ⟨"r2", "s2", "m2", "NUM"⟩]
        (Except.ok [⟨"message", "assistant", [⟨some "X"⟩]⟩] : Except Unit (List RespItem))).length ≠ 2 := by
  decide

/-- C2: for every batch whose remote call raises an exception of any
class (the error value `e` is arbitrary, covering the fatal bad-request
error and the retries-exhausted failure alike), the dispatch step
returns, without propagating the exception, exactly one output per input
row in input order, every one the empty string — never a shorter list. -/
theorem dispatch_failsoft_on_exception {ε : Type} (e : ε) (chunk : List Row) :
    injectStep chunk (Except.error e) =
      chunk.map (fun row => ⟨row.rid, row.src_en, row.mt_de, row.target_err, ""⟩) ∧
    (injectStep chunk (Except.error e)).length = chunk.length ∧
    ∀ out ∈ injectStep chunk (Except.error e), out.mt_de_injected = "" := by
  have h1 : injectStep chunk (Except.error e) =
      chunk.map (fun row => ⟨row.rid, row.src_en, row.mt_de, row.target_err, ""⟩) := by
    simp only [injectStep]
    rw [zip_replicate_self, List.map_map]
    rfl
  refine ⟨h1, ?_, ?_⟩
  · rw [h1, List.length_map]
  · rw [h1]
    intro out hout
    obtain ⟨row, _, rfl⟩ := List.mem_map.mp hout
    rfl

/-- C2 witness: a concrete one-row batch whose call raised. -/
theorem dispatch_failsoft_on_exception_witness :
    injectStep [⟨"r1", "s1", "m1", "NAM"⟩] (Except.error () : Except Unit (List RespItem)) =
      [⟨"r1", "s1", "m1", "NAM", ""⟩] :=
  (dispatch_failsoft_on_exception () [⟨"r1", "s1", "m1", "NAM"⟩]).1.trans (by decide)

/-- C3: `_with_retries` classifies errors in exactly two ways. After `n`
retryable failures, a `BadRequestError` at attempt `n` is re-raised at
once — `n + 1` calls in total, no further attempt, and no backoff sleep
beyond the `n` earlier ones; whereas a retryable failure at attempt `n`
triggers one more backoff sleep and another attempt within the ceiling
(observed here through a success at attempt `n + 1`: `n + 2` calls and a
sleep for every failed attempt including attempt `n`). -/
theorem retry_error_classification {α : Type} (oracle : Nat → CallOutcome α)
    (jf : Nat → ℚ) (n : Nat) (hn : n < MAX_RETRIES)
    (hpre : ∀ m, m < n → oracle m = CallOutcome.retryable) :
    (oracle n = CallOutcome.badRequest →
      withRetries oracle jf =
        ⟨RetryOutcome.fatalBadRequest, n + 1, (List.range n).map (backoffWait jf)⟩) ∧
    (∀ r : α, oracle n = CallOutcome.retryable → n + 1 < MAX_RETRIES →
      oracle (n + 1) = CallOutcome.success r →
      withRetries oracle jf =
        ⟨RetryOutcome.ok r, n + 2, (List.range (n + 1)).map (backoffWait jf)⟩) := by
  constructor
  · intro hb
    exact withRetries_badRequest_at oracle jf n hn hpre hb
  · intro r hr hn1 hs
    have hpre1 : ∀ m, m < n + 1 → oracle m = CallOutcome.retryable := by
      intro m hm
      rcases Nat.lt_succ_iff_lt_or_eq.mp hm with h | h
      · exact hpre m h
      · subst h
        exact hr
    exact withRetries_success_at oracle jf (n + 1) r hn1 hpre1 hs

/-- C3 witness: one retryable failure, then a bad request at attempt 1:
re-raised with two calls made and a single backoff sleep. -/
theorem retry_error_classification_witness :
    withRetries (fun m => if m = 0 then CallOutcome.retryable else
        (CallOutcome.badRequest : CallOutcome Nat)) (fun _ => 0) =
      ⟨RetryOutcome.fatalBadRequest, 2,
       (List.range 1).map (backoffWait (fun _ => 0))⟩ := by
  have hpre : ∀ m, m < 1 → (fun m => if m = 0 then CallOutcome.retryable else
      (CallOutcome.badRequest : CallOutcome Nat)) m = CallOutcome.retryable := by
    intro m hm
    have hm0 : m = 0 := by omega
    subst hm0
    rfl
  exact (retry_error_classification _ _ 1 (by decide) hpre).1 rfl

/-- C4: `_parse_five_ints` tries separators in priority order — tab if a
tab character is present in the stripped text, else comma if a comma is
present, else generic whitespace — and the three example replies all
parse to the same tuple `(2, 3, 2, 3, 4)`. -/
theorem parse_separator_priority (raw : List Char) :
    ('\t' ∈ pyStrip raw → chooseParts raw = splitOnChar '\t' (pyStrip raw)) ∧
    ('\t' ∉ pyStrip raw → ',' ∈ pyStrip raw →
      chooseParts raw = (splitOnChar ',' (pyStrip raw)).map pyStrip) ∧
    ('\t' ∉ pyStrip raw → ',' ∉ pyStrip raw → chooseParts raw = splitWs (pyStrip raw)) ∧
    parseFiveInts "2\t3\t2\t3\t4".data = some ⟨2, 3, 2, 3, 4⟩ ∧
    parseFiveInts "2,3,2,3,4".data = some ⟨2, 3, 2, 3, 4⟩ ∧
    parseFiveInts "2 3 2 3 4".data = some ⟨2, 3, 2, 3, 4⟩ := by
  refine ⟨?_, ?_, ?_, by decide, by decide, by decide⟩
  · intro ht
    simp [chooseParts, ht]
  · intro ht hc
    simp [chooseParts, ht, hc]
  · intro ht hc
    simp [chooseParts, ht, hc]

/-- C4 witness: the tab-priority case at a concrete reply, plus one of
the concrete parses. -/
theorem parse_separator_priority_witness :
    chooseParts "2\t3\t2\t3\t4".data = splitOnChar '\t' (pyStrip "2\t3\t2\t3\t4".data) ∧
    parseFiveInts "2 3 2 3 4".data = some ⟨2, 3, 2, 3, 4⟩ :=
  ⟨(parse_separator_priority "2\t3\t2\t3\t4".data).1 (by decide),
   (parse_separator_priority "2 3 2 3 4".data).2.2.2.2.2⟩

/-- C5: `_parse_five_ints` fails (returns no tuple at all — by its type
it can never return a coerced or partial one) exactly when the chosen
split does not yield exactly five fields, or some field fails integer
conversion, or the converted values contain one outside [1, 5]. -/
theorem parse_strict_failure_iff (raw : List Char) :
    parseFiveInts raw = none ↔
      (chooseParts raw).length ≠ 5 ∨
      (∃ p ∈ chooseParts raw, pyInt p = none) ∨
      (∃ vals, mapOption pyInt (chooseParts raw) = some vals ∧
        ∃ v ∈ vals, v < 1 ∨ 5 < v) := by
  by_cases hl : (chooseParts raw).length = 5
  · cases hm : mapOption pyInt (chooseParts raw) with
    | none =>
      apply iff_of_true
      · simp [parseFiveInts, hl, hm]
      · exact Or.inr (Or.inl ((mapOption_eq_none_iff pyInt (chooseParts raw)).mp hm))
    | some vals =>
      cases hany : vals.any (fun v => decide (v < 1) || decide (5 < v)) with
      | true =>
        apply iff_of_true
        · simp [parseFiveInts, hl, hm, hany]
        · refine Or.inr (Or.inr ⟨vals, rfl, ?_⟩)
          obtain ⟨v, hv, hvp⟩ := List.any_eq_true.mp hany
          exact ⟨v, hv, by simpa using hvp⟩
      | false =>
        have hlen : vals.length = 5 := by
          rw [mapOption_length pyInt (chooseParts raw) vals hm, hl]
        obtain ⟨a, b, c, d, e, hvals⟩ : ∃ a b c d e, vals = [a, b, c, d, e] := by
          match vals, hlen with
          | [a, b, c, d, e], _ => exact ⟨a, b, c, d, e, rfl⟩
        have hsome : parseFiveInts raw = some ⟨a, b, c, d, e⟩ := by
          rw [hvals] at hany
          simp at hany
          simp [parseFiveInts, hl, hm, hvals]
          omega
        apply iff_of_false
        · rw [hsome]
          exact fun hc => Option.noConfusion hc
        · rintro (h | h | h)
          · exact h hl
          · have hn : mapOption pyInt (chooseParts raw) = none :=
              (mapOption_eq_none_iff pyInt (chooseParts raw)).mpr h
            rw [hm] at hn
            exact Option.noConfusion hn
          · obtain ⟨vals', hv', v, hvmem, hvr⟩ := h
            injection hv' with hv'
            subst hv'
            have htrue : vals.any (fun v => decide (v < 1) || decide (5 < v)) = true := by
              refine List.any_eq_true.mpr ⟨v, hvmem, ?_⟩
              rcases hvr with h | h <;> simp [h]
            rw [hany] at htrue
            exact Bool.noConfusion htrue
  · apply iff_of_true
    · simp [parseFiveInts, hl]
    · exact Or.inl hl

/-- C5 witness: an out-of-range reply satisfies the failure condition. -/
theorem parse_strict_failure_iff_witness :
    (chooseParts "6\t1\t1\t1\t1".data).length ≠ 5 ∨
    (∃ p ∈ chooseParts "6\t1\t1\t1\t1".data, pyInt p = none) ∨
    (∃ vals, mapOption pyInt (chooseParts "6\t1\t1\t1\t1".data) = some vals ∧
      ∃ v ∈ vals, v < 1 ∨ 5 < v) :=
  (parse_strict_failure_iff "6\t1\t1\t1\t1".data).mp (by decide)

/-- C6: after a retryable failure of attempt `n` (0-indexed, attempts 0
through `n` all failing retryably), the wait before the next attempt
equals `BACKOFF_BASE_S * 2 ^ n` plus the jitter draw of that attempt,
which lies in `[0, JITTER_S]`; the non-jittered components for attempts
0..5 with the configured base 1.0 are exactly 1, 2, 4, 8, 16, 32 —
strictly doubling at every step with no upper cap. -/
theorem backoff_schedule {α : Type} (oracle : Nat → CallOutcome α) (jf : Nat → ℚ)
    (n : Nat) (hn : n < MAX_RETRIES)
    (hretry : ∀ m, m ≤ n → oracle m = CallOutcome.retryable)
    (hj0 : 0 ≤ jf n) (hj1 : jf n ≤ JITTER_S) :
    (withRetries oracle jf).sleeps.get? n = some (BACKOFF_BASE_S * 2 ^ n + jf n) ∧
    BACKOFF_BASE_S * 2 ^ n ≤ BACKOFF_BASE_S * 2 ^ n + jf n ∧
    BACKOFF_BASE_S * 2 ^ n + jf n ≤ BACKOFF_BASE_S * 2 ^ n + JITTER_S ∧
    (List.range MAX_RETRIES).map (fun m => BACKOFF_BASE_S * 2 ^ m) =
      [1, 2, 4, 8, 16, 32] ∧
    (∀ k : Nat, BACKOFF_BASE_S * 2 ^ (k + 1) = 2 * (BACKOFF_BASE_S * 2 ^ k)) := by
  refine ⟨?_, by linarith, by linarith, ?_, fun k => by ring⟩
  · have hsteps := withRetriesAux_retryableSteps oracle jf (n + 1) 0 MAX_RETRIES (by omega)
      (fun m hm => by simpa using hretry m (by omega))
    have hsl : (withRetries oracle jf).sleeps =
        (List.range (n + 1)).map (fun m => backoffWait jf (0 + m)) ++
          (withRetriesAux oracle jf (0 + (n + 1)) (MAX_RETRIES - (n + 1))).sleeps := by
      rw [withRetries, hsteps]
    rw [hsl, List.get?_append (by simpa using Nat.lt_succ_self n), List.get?_map,
      List.get?_range (Nat.lt_succ_self n)]
    simp [backoffWait]
  · norm_num [MAX_RETRIES, BACKOFF_BASE_S, List.range_succ]

/-- C6 witness: every attempt failing retryably with zero jitter draws;
the first sleep is the base wait of 1 time-unit. -/
theorem backoff_schedule_witness :
    (withRetries (fun _ => (CallOutcome.retryable : CallOutcome Unit))
        (fun _ => 0)).sleeps.get? 0 = some (BACKOFF_BASE_S * 2 ^ 0 + (0 : ℚ)) ∧
    BACKOFF_BASE_S * 2 ^ 0 ≤ BACKOFF_BASE_S * 2 ^ 0 + (0 : ℚ) ∧
    BACKOFF_BASE_S * 2 ^ 0 + (0 : ℚ) ≤ BACKOFF_BASE_S * 2 ^ 0 + JITTER_S ∧
    (List.range MAX_RETRIES).map (fun m => BACKOFF_BASE_S * 2 ^ m) =
      [1, 2, 4, 8, 16, 32] ∧
    (∀ k : Nat, BACKOFF_BASE_S * 2 ^ (k + 1) = 2 * (BACKOFF_BASE_S * 2 ^ k)) :=
  backoff_schedule (fun _ => (CallOutcome.retryable : CallOutcome Unit)) (fun _ => 0)
    0 (by decide) (fun m _ => rfl) (by norm_num) (by norm_num [JITTER_S])

/-- C7: the claimed reconciliation contract — every row already complete
is unchanged and every incomplete row appears in the output replaced by
a freshly attempted result — fails on the code. For a dataset holding a
single incomplete row whose batch call succeeds but yields zero
extracted texts, the positional `zip` truncates and the reconciled
output is empty: the incomplete row is dropped, not replaced. -/
theorem reconcile_drops_incomplete_row :
    isComplete ⟨"r1", "s", "m", "NAM", some ""⟩ = false ∧
    reconcile [⟨"r1", "s", "m", "NAM", some ""⟩]
      (fun _ => (Except.ok [] : Except Unit (List RespItem))) = [] := by
  decide

/-- C8: reconciliation is idempotent at its fixed point — if every row of
one reconciliation's output is complete, reconciling that output again
(under any remote behaviour) returns it unchanged. -/
theorem reconcile_idempotent {ε : Type} (ds : List IRow)
    (c1 c2 : Nat → Except ε (List RespItem))
    (h : ∀ r ∈ reconcile ds c1, isComplete r = true) :
    reconcile (reconcile ds c1) c2 = reconcile ds c1 := by
  have hkeep : (reconcile ds c1).filter (fun r => isComplete r) = reconcile ds c1 :=
    List.filter_eq_self.mpr h
  have hfix : (reconcile ds c1).filter (fun r => !isComplete r) = [] := by
    refine List.filter_eq_nil.mpr ?_
    intro a ha
    simp [h a ha]
  conv_lhs => rw [reconcile]
  rw [hkeep, hfix]
  simp [chunksOf, chunksOfAux]

/-- C8 witness: a dataset whose single row is complete reconciles to
itself, so the second pass is a no-op. -/
theorem reconcile_idempotent_witness :
    reconcile (reconcile [⟨"r1", "s", "m", "NAM", some "X"⟩]
        (fun _ => (Except.error () : Except Unit (List RespItem))))
      (fun _ => (Except.error () : Except Unit (List RespItem))) =
    reconcile [⟨"r1", "s", "m", "NAM", some "X"⟩]
      (fun _ => (Except.error () : Except Unit (List RespItem))) :=
  reconcile_idempotent [⟨"r1", "s", "m", "NAM", some "X"⟩]
    (fun _ => (Except.error () : Except Unit (List RespItem)))
    (fun _ => (Except.error () : Except Unit (List RespItem))) (by decide)

/-- The scoring loop preserves the row count. -/
theorem scoringAux_length (b j : Nat → CallRes) :
    ∀ (i : Nat) (rows : List JRow), (scoringAux b j i rows).length = rows.length := by
  intro i rows
  induction rows generalizing i with
  | nil => rfl
  | cons r t ih => simp [scoringAux, ih]

/-- Positional characterisation of the scoring loop. -/
theorem scoringAux_get (b j : Nat → CallRes) :
    ∀ (rows : List JRow) (i k : Nat),
      (scoringAux b j i rows).get? k =
        (rows.get? k).map (fun r => scoreRow r (b (i + k)) (j (i + k))) := by
  intro rows
  induction rows with
  | nil => intro i k; simp [scoringAux]
  | cons r t ih =>
    intro i k
    cases k with
    | zero => simp [scoringAux]
    | succ k' =>
      have e : i + (k' + 1) = i + 1 + k' := by omega
      simp only [scoringAux, List.get?_cons_succ]
      rw [ih (i + 1) k', e]

/-- C9: the scoring pipeline emits exactly one output record per input
row, in input order; a row whose back-translation or judgement call
raises carries empty derived text and null scores, and a row whose calls
return but whose reply fails to parse carries the derived text with null
scores — a row is never dropped. -/
theorem scoring_pipeline_rows (rows : List JRow) (b j : Nat → CallRes) :
    (scoringPipeline rows b j).length = rows.length ∧
    ∀ k r, rows.get? k = some r →
      (scoringPipeline rows b j).get? k = some (scoreRow r (b k) (j k)) ∧
      (scoreRow r (b k) (j k)).src_en = r.src_en ∧
      (scoreRow r (b k) (j k)).mt_de = r.mt_de ∧
      (scoreRow r (b k) (j k)).label = r.label ∧
      ((b k = CallRes.raises ∨ j k = CallRes.raises) →
        (scoreRow r (b k) (j k)).bt_en = "" ∧ (scoreRow r (b k) (j k)).scores = none) ∧
      (∀ bt t, b k = CallRes.returns bt → j k = CallRes.returns t →
        parseFiveInts t.data = none →
        (scoreRow r (b k) (j k)).bt_en = bt ∧ (scoreRow r (b k) (j k)).scores = none) := by
  refine ⟨scoringAux_length b j 0 rows, ?_⟩
  intro k r hk
  refine ⟨?_, ?_, ?_, ?_, ?_, ?_⟩
  · rw [scoringPipeline, scoringAux_get b j rows 0 k, hk]
    simp
  · cases hb : b k with
    | raises => rfl
    | returns bt => cases hp : parseFiveInts bt.data <;> cases hj : j k <;>
        simp [scoreRow, judge_case]
  · cases hb : b k with
    | raises => rfl
    | returns bt => cases hj : j k <;> simp [scoreRow, judge_case]
  · cases hb : b k with
    | raises => rfl
    | returns bt => cases hj : j k <;> simp [scoreRow, judge_case]
  · rintro (hb | hj)
    · simp [scoreRow, hb]
    · cases hb : b k with
      | raises => simp [scoreRow, hb]
      | returns bt => simp [scoreRow, judge_case, hj]
  · intro bt t hb hj hp
    simp [scoreRow, hb, judge_case, hj, hp]

/-- C9 witness: a single row whose both calls raise yields one record
with empty derived text and null scores. -/
theorem scoring_pipeline_rows_witness :
    (scoringPipeline [⟨"s", "m", "l"⟩] (fun _ => CallRes.raises)
        (fun _ => CallRes.raises)).get? 0 = some ⟨"s", "m", "", "l", none⟩ := by
  have h := (scoring_pipeline_rows [⟨"s", "m", "l"⟩] (fun _ => CallRes.raises)
    (fun _ => CallRes.raises)).2 0 ⟨"s", "m", "l"⟩ rfl
  exact h.1.trans rfl

/-- C10: when every one of the `MAX_RETRIES` (six) attempts fails
retryably, `_with_retries` performs exactly six backoff sleeps — one
after each failed attempt, including a final sleep of non-jittered
component 32 after the last attempt although no further attempt follows
— before raising the terminal retries-exceeded failure. -/
theorem retries_exhausted_six_sleeps {α : Type} (oracle : Nat → CallOutcome α)
    (jf : Nat → ℚ) (h : ∀ m, m < MAX_RETRIES → oracle m = CallOutcome.retryable) :
    withRetries oracle jf =
      ⟨RetryOutcome.maxRetriesExceeded, MAX_RETRIES,
       [backoffWait jf 0, backoffWait jf 1, backoffWait jf 2,
        backoffWait jf 3, backoffWait jf 4, backoffWait jf 5]⟩ ∧
    (withRetries oracle jf).sleeps.length = 6 ∧
    backoffWait jf 5 = 32 + jf 5 := by
  have hall := withRetries_allRetryable oracle jf h
  refine ⟨?_, ?_, ?_⟩
  · rw [hall]
    rfl
  · rw [hall]
    rfl
  · show BACKOFF_BASE_S * 2 ^ 5 + jf 5 = 32 + jf 5
    norm_num [BACKOFF_BASE_S]

/-- C10 witness: all six attempts retryable with zero jitter draws. -/
theorem retries_exhausted_six_sleeps_witness :
    withRetries (fun _ => (CallOutcome.retryable : CallOutcome Unit)) (fun _ => 0) =
      ⟨RetryOutcome.maxRetriesExceeded, MAX_RETRIES,
       [backoffWait (fun _ => 0) 0, backoffWait (fun _ => 0) 1, backoffWait (fun _ => 0) 2,
        backoffWait (fun _ => 0) 3, backoffWait (fun _ => 0) 4, backoffWait (fun _ => 0) 5]⟩ :=
  (retries_exhausted_six_sleeps (fun _ => (CallOutcome.retryable : CallOutcome Unit))
    (fun _ => 0) (fun m _ => rfl)).1

end SynCED
